import Mathlib

set_option linter.unusedVariables false

/-!
Verification development for the InkyPi agenda + weather dashboard plugin.

The Python sources (`agenda_weather.py`, `constants.py`, `render/pil_renderer.py`)
are shallowly embedded below.  Wall-clock arithmetic is done in minutes since an
arbitrary epoch; `datetime` values are pairs of a UTC instant and an attached
UTC offset; a timezone is modelled by how `pytz` resolves offsets.  External
collaborators (HTTP transport, the iCalendar recurrence-expansion library, PIL
font metrics and drawing primitives, `strftime`) are abstracted as inputs.
-/

namespace AgendaWeather

/-- Python banker's rounding (`round` on a value that the float represents
exactly): round half to even. -/
def pyRound (q : ℚ) : Int :=
  let f := ⌊q⌋
  let r : ℚ := q - f
  if r < 1/2 then f
  else if 1/2 < r then f + 1
  else if f % 2 = 0 then f else f + 1

/-- Python `int()` on a float value: truncation toward zero. -/
def pyInt (q : ℚ) : Int := if 0 ≤ q then ⌊q⌋ else -⌊-q⌋

/-- An RGB colour triple, the decoded form of the hex colour strings in the
source (`PIL.ImageColor.getrgb`, an external collaborator, is modelled as the
identity on already-decoded triples). -/
structure RGB where
  r : Nat
  g : Nat
  b : Nat
deriving DecidableEq, Repr

/-- The default calendar colour `'#007BFF'` of `generate_image`. -/
def defaultColor : RGB := ⟨0, 123, 255⟩

/-- Embedding of `get_contrast_color` (agenda_weather.py, lines 251-260): the
YIQ brightness formula decides between black and white text.  The float
quotient is modelled as an exact rational; this is faithful because the
integer numerator is below 2^18, so the quotient's distance from 150 is either
0 or at least 1/1000, far above float error. -/
def get_contrast_color (color : RGB) : String :=
  let yiq : ℚ := ((color.r : ℚ) * 299 + (color.g : ℚ) * 587 + (color.b : ℚ) * 114) / 1000
  if 150 ≤ yiq then "#000000" else "#ffffff"

/-- A timezone, modelled by how `pytz` resolves UTC offsets (in minutes):
`fromUtcOff u` is the offset that `astimezone` / `fromutc` attaches at the UTC
instant `u` (minutes since an arbitrary epoch), and `localizeOff w` is the
offset `tz.localize` attaches to a naive wall-clock time `w`. -/
structure Tz where
  fromUtcOff : Int → Int
  localizeOff : Int → Int

/-- A timezone-aware `datetime`: its UTC instant in minutes plus its attached
UTC offset in minutes.  Wall-clock fields are `utc + off`; Python compares
aware datetimes by instant. -/
structure AwareDT where
  utc : Int
  off : Int
deriving DecidableEq, Repr

/-- The wall-clock minutes shown by the datetime's own fields. -/
def AwareDT.wall (d : AwareDT) : Int := d.utc + d.off

/-- Python `.date()`, as a calendar-day number: floor division of the
wall-clock minutes by 1440. -/
def AwareDT.date (d : AwareDT) : Int := Int.fdiv d.wall 1440

/-- Embedding of `datetime.astimezone(tz)` for a `pytz` timezone: same instant,
offset re-resolved at that instant. -/
def Tz.astimezone (tz : Tz) (d : AwareDT) : AwareDT := ⟨d.utc, tz.fromUtcOff d.utc⟩

/-- Embedding of `tz.localize(naive)`: attaches an offset and keeps the naive
wall-clock fields unchanged. -/
def Tz.localize (tz : Tz) (w : Int) : AwareDT := ⟨w - tz.localizeOff w, tz.localizeOff w⟩

/-- The timestamp strings stored in the event dictionaries, as far as the code
observes them through `datetime.fromisoformat` (after the `"Z" → "+00:00"`
rewrite a `Z`-suffixed string is an offset string, covered by `aware`):
`missing` is an absent or empty `start` value, `bad` a string `fromisoformat`
raises on, `dateOnly day` a date-only string `"YYYY-MM-DD"` (parsing to naive
midnight of calendar day `day`), and `aware day tod off` an `isoformat()`
string with wall-clock calendar day `day`, wall-clock time-of-day `tod`
(minutes), and an explicit UTC offset of `off` minutes.  The pipeline's own
timestamps come from `astimezone(tz).isoformat()` or `date.isoformat()`, so
naive timed strings do not occur and are not modelled. -/
inductive StartTs where
  | missing
  | bad
  | dateOnly (day : Int)
  | aware (day : Int) (tod : Nat) (off : Int)
deriving DecidableEq, Repr

/-- Parse-and-normalize as `_has_event_on_date` / `_events_for_date` /
`_format_event_time` all perform it: `fromisoformat`, then `tz.localize` for a
naive result or `astimezone(tz)` for an aware one.  `none` models the caught
parse failure. -/
def tsToTzAware (tz : Tz) : StartTs → Option AwareDT
  | .missing => none
  | .bad => none
  | .dateOnly day => some (tz.localize (day * 1440))
  | .aware day tod off => some (tz.astimezone ⟨day * 1440 + tod - off, off⟩)

/-- A normalized event dictionary (agenda entry). The optional `"end"` key is
`endTime`; `classNames` marks synthetic placeholder rows. -/
structure Event where
  title : String
  start : StartTs
  endTime : Option StartTs := none
  allDay : Bool := false
  backgroundColor : RGB := defaultColor
  textColor : String := ""
  classNames : List String := []
deriving DecidableEq, Repr

/-- The per-event test shared (as duplicated inline code) by
`_has_event_on_date` and `_events_for_date`: the start parses and, converted
into the target timezone, falls on `date`; missing and unparseable starts fail
the test. -/
def onDate (tz : Tz) (date : Int) (ev : Event) : Bool :=
  match tsToTzAware tz ev.start with
  | none => false
  | some dt => dt.date == date

/-- Embedding of `_has_event_on_date` (agenda_weather.py, lines 195-211). -/
def has_event_on_date (tz : Tz) (events : List Event) (target_date : Int) : Bool :=
  events.any (onDate tz target_date)

/-- One occurrence handed to the filtering loop of `fetch_ics_events`, i.e. the
output of `parse_data_points` for a single expanded instance: the title, the
`start` string, the optional `end` string, and the all-day flag. -/
structure Occurrence where
  title : String
  start : StartTs
  endTime : Option StartTs
  allDay : Bool
deriving DecidableEq, Repr

/-- Parse as the aggregator's filter performs it on `end or start`:
`fromisoformat` plus `tz.localize` for a naive result, but — unlike the
bucketing helpers — no `astimezone` for an aware one. -/
def parseNoConvert (tz : Tz) : StartTs → Option AwareDT
  | .missing => none
  | .bad => none
  | .dateOnly day => some (tz.localize (day * 1440))
  | .aware day tod off => some ⟨day * 1440 + tod - off, off⟩

/-- The datetime the filter of `fetch_ics_events` compares with: Python's
`end_iso = end or start` takes the `end` string when the key is present (the
pipeline's timestamp strings are never empty), else the `start` string. -/
def filterEndDt (tz : Tz) (occ : Occurrence) : Option AwareDT :=
  parseNoConvert tz (match occ.endTime with | some e => e | none => occ.start)

/-- The per-occurrence filter of `fetch_ics_events` (agenda_weather.py, lines
155-177): `false` means the occurrence is dropped (`continue`), `true` that it
is kept; a parse failure keeps.  `current_day_start.date()` equals
`current_dt.date()`, written `now.date` here. -/
def keepOccurrence (tz : Tz) (now : AwareDT) (occ : Occurrence) : Bool :=
  match filterEndDt tz occ with
  | none => true
  | some endDt =>
    if endDt.date < now.date then false
    else if endDt.date == now.date && !occ.allDay && decide (endDt.utc ≤ now.utc) then false
    else true

/-- The event dictionary built for a kept occurrence (lines 179-189). -/
def mkParsedEvent (color : RGB) (occ : Occurrence) : Event :=
  { title := occ.title
    start := occ.start
    endTime := occ.endTime
    allDay := occ.allDay
    backgroundColor := color
    textColor := get_contrast_color color
    classNames := [] }

/-- Embedding of `fetch_ics_events` (agenda_weather.py, lines 132-193)
restricted to its per-occurrence loop: the recurrence-expansion collaborator's
output for each source is taken as given (`cals` pairs each source's expanded
occurrence list with its colour); the loop keeps exactly the occurrences
passing `keepOccurrence` and appends their normalized dictionaries in order. -/
def fetch_ics_events (tz : Tz) (now : AwareDT)
    (cals : List (List Occurrence × RGB)) : List Event :=
  (cals.map fun cal => (cal.1.filter (keepOccurrence tz now)).map (mkParsedEvent cal.2)).flatten

/-- Modelled from the spec wording of claim C1 (for its refutation): the
effective end instant is "the later of `end` or `start`" — when both strings
parse, the maximum by instant; a failing timestamp keeps the occurrence. -/
def specEffectiveEnd (tz : Tz) (occ : Occurrence) : Option AwareDT :=
  match occ.endTime with
  | none => parseNoConvert tz occ.start
  | some e =>
    match parseNoConvert tz e, parseNoConvert tz occ.start with
    | some ed, some sd => some (if ed.utc < sd.utc then sd else ed)
    | some ed, none => some ed
    | none, _ => none

/-- The exclusion condition exactly as claim C1 states it, over the spec's
"later of `end` or `start`" effective end instant. -/
def specExcludes (tz : Tz) (now : AwareDT) (occ : Occurrence) : Bool :=
  match specEffectiveEnd tz occ with
  | none => false
  | some d =>
    decide (d.date < now.date) ||
      (!occ.allDay && (d.date == now.date) && decide (d.utc ≤ now.utc))

/-- One entry of the `LABELS` table (constants.py, lines 28-61). -/
structure Labels where
  allDayText : String
  noEventsContent : String
  nothingMoreToday : String
  today : String
  tomorrow : String
  dayAfterTomorrow : String
deriving DecidableEq, Repr

/-- The English labels, `LABELS["en"]`. -/
def labelsEn : Labels :=
  { allDayText := "All day"
    noEventsContent := "Nothing scheduled!"
    nothingMoreToday := "Nothing more for today."
    today := "Today"
    tomorrow := "Tomorrow"
    dayAfterTomorrow := "Day after tomorrow" }

/-- The German labels, `LABELS["de"]`. -/
def labelsDe : Labels :=
  { allDayText := "Ganztägig"
    noEventsContent := "Nix geplant!"
    nothingMoreToday := "Nix mehr los heute!"
    today := "Heute"
    tomorrow := "Morgen"
    dayAfterTomorrow := "Übermorgen" }

/-- The Spanish labels, `LABELS["es"]`. -/
def labelsEs : Labels :=
  { allDayText := "Todo el día"
    noEventsContent := "¡Nada programado!"
    nothingMoreToday := "Nada más para hoy."
    today := "Hoy"
    tomorrow := "Mañana"
    dayAfterTomorrow := "Pasado mañana" }

/-- The French labels, `LABELS["fr"]`. -/
def labelsFr : Labels :=
  { allDayText := "Toute la journée"
    noEventsContent := "Rien de prévu !"
    nothingMoreToday := "Rien d'autre pour aujourd'hui."
    today := "Aujourd'hui"
    tomorrow := "Demain"
    dayAfterTomorrow := "Après-demain" }

/-- Embedding of `LABELS.get(locale_code, LABELS["en"])`. -/
def getLabels (locale : String) : Labels :=
  if locale = "en" then labelsEn
  else if locale = "de" then labelsDe
  else if locale = "es" then labelsEs
  else if locale = "fr" then labelsFr
  else labelsEn

/-- The placeholder dictionary injected for today (agenda_weather.py, lines
70-79).  Its start string is `current_dt.replace(hour=0, minute=0, second=0,
microsecond=0).isoformat()`: wall-clock midnight of the current date carrying
the UTC offset of `now`, which `replace` keeps unchanged. -/
def placeholderToday (labels : Labels) (now : AwareDT) : Event :=
  { title := labels.nothingMoreToday
    start := .aware now.date 0 now.off
    allDay := true
    backgroundColor := defaultColor
    textColor := get_contrast_color defaultColor
    classNames := ["senior-dashboard-nothing-more"] }

/-- The placeholder dictionary injected for tomorrow (`k = 1`, lines 85-92) or
the day after tomorrow (`k = 2`, lines 98-105).  `current_dt + timedelta(days=k)`
keeps the tzinfo of `now`, advances the wall clock by `k` whole days, and
`replace` then zeroes the time of day, so the start string is wall-clock
midnight of day `now.date + k` carrying the offset of `now`. -/
def placeholderFuture (labels : Labels) (now : AwareDT) (k : Int) : Event :=
  { title := labels.noEventsContent
    start := .aware (now.date + k) 0 now.off
    allDay := true
    backgroundColor := defaultColor
    textColor := get_contrast_color defaultColor
    classNames := ["senior-dashboard-nothing-more"] }

/-- Embedding of the placeholder-injection steps of `generate_image`
(agenda_weather.py, lines 67-105): for each of the 3 agenda days in order, if
no current event starts on that day, append that day's placeholder. -/
def injectPlaceholders (tz : Tz) (labels : Labels) (now : AwareDT)
    (events : List Event) : List Event :=
  let ev1 := if has_event_on_date tz events now.date then events
             else events ++ [placeholderToday labels now]
  let ev2 := if has_event_on_date tz ev1 (now.date + 1) then ev1
             else ev1 ++ [placeholderFuture labels now 1]
  if has_event_on_date tz ev2 (now.date + 2) then ev2
  else ev2 ++ [placeholderFuture labels now 2]

/-- The `WEATHER_ICONS` table (constants.py, lines 63-85). -/
def WEATHER_ICONS : List (Int × String) :=
  [(0, "☀️"), (1, "🌤️"), (2, "⛅"), (3, "☁️"),
   (45, "🌫️"), (48, "🌫️"),
   (51, "🌦️"), (53, "🌦️"), (55, "🌦️"),
   (61, "🌧️"), (63, "🌧️"), (65, "🌧️"),
   (71, "❄️"), (73, "❄️"), (75, "❄️"),
   (80, "🌦️"), (81, "🌧️"), (82, "🌧️"),
   (95, "⛈️"), (96, "⛈️"), (99, "⛈️")]

/-- Embedding of `get_weather_icon` (agenda_weather.py, lines 262-264). -/
def get_weather_icon (code : Int) : String :=
  (WEATHER_ICONS.lookup code).getD "❓"

/-- The decoded `current_weather` object of the provider payload, with each
field optional exactly as the `.get(…, default)` reads treat it. -/
structure CurrentWeatherRaw where
  weathercode : Option Int
  temperature : Option ℚ
  windspeed : Option ℚ
deriving DecidableEq, Repr

/-- One entry of the provider's hourly time series.  The API returns
fixed-format times `"YYYY-MM-DDTHH:MM"`, read by the code as a date part
(compared by `t.startswith(today_str)`, i.e. equality of the date text) and an
hour-of-day `int(t[11:13])`. -/
structure HourlyTime where
  dayText : String
  hour : Int
deriving DecidableEq, Repr

/-- The decoded JSON payload of a successful Open-Meteo response, as the
success path of `fetch_weather_data` reads it: `current_weather` may be absent
(`data.get("current_weather", {})`); the daily `time` list may be absent
(`"time" in daily` and `daily.get("time", [None])`); the remaining daily and
hourly arrays default to `[]` when absent, which a plain list models. -/
structure ApiData where
  current_weather : Option CurrentWeatherRaw
  daily_time : Option (List String)
  daily_temperature_2m_min : List ℚ
  daily_temperature_2m_max : List ℚ
  daily_precipitation_sum : List ℚ
  daily_weathercode : List Int
  hourly_time : List HourlyTime
  hourly_temperature_2m : List ℚ
deriving DecidableEq, Repr

/-- The processed current-weather record (lines 294-300). -/
structure CurrentWeather where
  icon : String
  temperature : ℚ
  windspeed : ℚ
  weathercode : Int
deriving DecidableEq, Repr

/-- The processed today record (lines 305-333).  `hourly` is the insertion
ordered dict with keys among `"8am"`, `"noon"`, `"3pm"`. -/
structure TodayWeather where
  temp_min : Option ℚ
  temp_max : Option ℚ
  icon : String
  weathercode : Int
  hourly : List (String × ℚ)
deriving DecidableEq, Repr

/-- One processed forecast entry (lines 336-347). -/
structure ForecastDay where
  date : String
  icon : String
  temp_min : ℚ
  temp_max : ℚ
  precipitation : ℚ
  weathercode : Int
deriving DecidableEq, Repr

/-- The Weather Snapshot returned by `fetch_weather_data`.  On the failure
path the Python dict `{"current": None, "forecast": []}` has no `"today"` key;
every consumer reads the dict through `.get`, for which a missing key and a
key set to `None` are indistinguishable, so both are `none` here. -/
structure WeatherResult where
  current : Option CurrentWeather
  today : Option TodayWeather
  forecast : List ForecastDay
deriving DecidableEq, Repr

/-- The degraded Snapshot of the `except` branch (lines 361-366). -/
def degradedWeather : WeatherResult := { current := none, today := none, forecast := [] }

/-- Python dict assignment `d[k] = v` on an insertion-ordered assoc list:
overwrite in place if the key exists, else append. -/
def dictInsert (k : String) (v : ℚ) : List (String × ℚ) → List (String × ℚ)
  | [] => [(k, v)]
  | (k', v') :: rest => if k' = k then (k', v) :: rest else (k', v') :: dictInsert k v rest

/-- The slot name for an hour of day, per `target_hours = {8: "8am", 12: "noon",
15: "3pm"}`. -/
def targetHourSlot (h : Int) : Option String :=
  if h = 8 then some "8am" else if h = 12 then some "noon"
  else if h = 15 then some "3pm" else none

/-- The hourly-extraction loop (lines 316-325): scan the enumerated hourly
times, keep entries whose date text equals today's and whose index is within
the temperature list, and record target hours in the dict. -/
def hourlyToday (todayStr : String) (times : List HourlyTime) (temps : List ℚ) :
    List (String × ℚ) :=
  times.enum.foldl
    (fun acc p =>
      if p.2.dayText = todayStr ∧ p.1 < temps.length then
        match targetHourSlot p.2.hour with
        | some slot => dictInsert slot (temps.getD p.1 0) acc
        | none => acc
      else acc)
    []

/-- One forecast entry for index `i` (1 = tomorrow, 2 = day after), with the
bounds-guarded reads `daily.get(key, [0])[i] if i < len(daily.get(key, []))
else 0` of lines 340-347. -/
def forecastEntry (labels : Labels) (data : ApiData) (i : Nat) : ForecastDay :=
  { date := if i = 1 then labels.tomorrow else labels.dayAfterTomorrow
    icon := get_weather_icon
      (if i < data.daily_weathercode.length then data.daily_weathercode.getD i 0 else 0)
    temp_min :=
      if i < data.daily_temperature_2m_min.length then data.daily_temperature_2m_min.getD i 0 else 0
    temp_max :=
      if i < data.daily_temperature_2m_max.length then data.daily_temperature_2m_max.getD i 0 else 0
    precipitation :=
      if i < data.daily_precipitation_sum.length then data.daily_precipitation_sum.getD i 0 else 0
    weathercode :=
      if i < data.daily_weathercode.length then data.daily_weathercode.getD i 0 else 0 }

/-- Embedding of `fetch_weather_data` (agenda_weather.py, lines 266-366).  The
network request and JSON decoding are abstracted into the `resp` argument: any
raised network or parse failure is `Except.error`; the whole body runs inside
one `try`, whose `except` branch returns the degraded Snapshot.  A present but
empty daily `time` list makes `daily.get("time", [None])[0]` raise an
`IndexError`, which the same `except` catches. -/
def fetch_weather_data (labels : Labels) (resp : Except Unit ApiData) : WeatherResult :=
  match resp with
  | .error _ => degradedWeather
  | .ok data =>
    match data.daily_time with
    | some [] => degradedWeather
    | dailyTime =>
      let cur := data.current_weather.getD ⟨none, none, none⟩
      let current_weather : CurrentWeather :=
        { icon := get_weather_icon (cur.weathercode.getD 0)
          temperature := cur.temperature.getD 0
          windspeed := cur.windspeed.getD 0
          weathercode := cur.weathercode.getD 0 }
      let today_weather : Option TodayWeather :=
        match dailyTime with
        | none => none
        | some l =>
          match l.head? with
          | none => none
          | some todayStr =>
            -- `if today_str:`—an empty string is falsy and skips the block
            if todayStr = "" then none
            else some
              { temp_min := data.daily_temperature_2m_min.head?
                temp_max := data.daily_temperature_2m_max.head?
                icon := get_weather_icon (data.daily_weathercode.headD 0)
                weathercode := data.daily_weathercode.headD 0
                hourly := hourlyToday todayStr data.hourly_time data.hourly_temperature_2m }
      let forecast : List ForecastDay :=
        match dailyTime with
        | none => []
        | some l =>
          (List.range ((l.drop 1).take 2).length).map fun j => forecastEntry labels data (j + 1)
      { current := some current_weather, today := today_weather, forecast := forecast }

/-! ### The PIL renderer (render/pil_renderer.py) -/

/-- Colour constants of pil_renderer.py, lines 21-28. -/
def WHITE : RGB := ⟨255, 255, 255⟩

/-- Black, `(0, 0, 0)`. -/
def BLACK : RGB := ⟨0, 0, 0⟩

/-- Red, `(224, 0, 0)`. -/
def RED : RGB := ⟨224, 0, 0⟩

/-- Green, `(0, 200, 0)`. -/
def GREEN : RGB := ⟨0, 200, 0⟩

/-- Blue, `(0, 0, 255)`. -/
def BLUE : RGB := ⟨0, 0, 255⟩

/-- Light gray, `(200, 200, 200)`. -/
def LIGHT_GRAY : RGB := ⟨200, 200, 200⟩

/-- The `WEATHER_SYMBOLS` table (pil_renderer.py, lines 31-53). -/
def WEATHER_SYMBOLS : List (Int × String) :=
  [(0, "Clear"), (1, "Mostly Clear"), (2, "Partly Cloudy"), (3, "Overcast"),
   (45, "Fog"), (48, "Fog"),
   (51, "Light Drizzle"), (53, "Drizzle"), (55, "Heavy Drizzle"),
   (61, "Light Rain"), (63, "Rain"), (65, "Heavy Rain"),
   (71, "Light Snow"), (73, "Snow"), (75, "Heavy Snow"),
   (80, "Showers"), (81, "Rain Showers"), (82, "Heavy Showers"),
   (95, "Thunderstorm"), (96, "T-storm + Hail"), (99, "T-storm + Hail")]

/-- Embedding of `_convert_temp` (pil_renderer.py, lines 56-65): formatted
temperature string for the requested unit system; source data is Celsius. -/
def _convert_temp (celsius : Option ℚ) (units : String) : String :=
  match celsius with
  | none => "--"
  | some c =>
    if units = "imperial" then toString (pyRound (c * 9 / 5 + 32)) ++ "°F"
    else if units = "standard" then toString (pyRound (c + 273.15)) ++ "K"
    else toString (pyRound c) ++ "°C"

/-- Embedding of `_convert_temp_short` (lines 68-77): same rounded number, a
degree sign, no unit letter. -/
def _convert_temp_short (celsius : Option ℚ) (units : String) : String :=
  match celsius with
  | none => "--"
  | some c =>
    if units = "imperial" then toString (pyRound (c * 9 / 5 + 32)) ++ "°"
    else if units = "standard" then toString (pyRound (c + 273.15)) ++ "°"
    else toString (pyRound c) ++ "°"

/-- Embedding of `_unit_suffix` (lines 80-85). -/
def _unit_suffix (units : String) : String :=
  if units = "imperial" then "F" else if units = "standard" then "K" else "C"

/-- The loop of `_truncate_text` (lines 389-393): while more than one character
remains, drop the last character and return as soon as the shortened text plus
an ellipsis fits; fall back to a bare ellipsis.  `meas` is the abstracted
`draw.textbbox((0, 0), ·, font)[2]` width of the relevant font.  The loop
recurses on a fuel argument so that it is structural; every call keeps the
invariant `fuel = l.length`, under which the fuel never runs out. -/
def truncGo (meas : String → Int) (maxW : Int) : Nat → List Char → String
  | 0, _ => "…"
  | n + 1, l =>
    if l.length ≤ 1 then "…"
    else
      let t := l.dropLast
      if meas (String.mk t ++ "…") ≤ maxW then String.mk t ++ "…"
      else truncGo meas maxW n t

/-- Embedding of `_truncate_text` (pil_renderer.py, lines 386-393). -/
def _truncate_text (meas : String → Int) (text : String) (maxW : Int) : String :=
  if meas text ≤ maxW then text else truncGo meas maxW text.toList.length text.toList

/-- Lexicographic comparison of equal-length integer tuples, as Python compares
the sort-key tuples of `list.sort`. -/
def tupleLe : List Int → List Int → Bool
  | [], _ => true
  | _ :: _, [] => true
  | x :: xs, y :: ys => if x < y then true else if y < x then false else tupleLe xs ys

/-- The string-comparison key of a stored timestamp.  Python's sort key is the
raw `start` string; for the `isoformat()` and `date.isoformat()` strings of the
model, string comparison is lexicographic on (emptiness, calendar day, presence
of a time part, wall time of day, rendered offset), because the date digits
come first, a date-only string is a proper initial segment of any timed string
of the same day, and offsets render as `"+HH:MM"`/`"-HH:MM"`, so nonnegative
offsets sort before negative ones and negative ones by absolute value.
`missing` is the empty-string key `ev.get("start", "")`; `bad` never reaches
the sort (unparseable starts are filtered out first), its key is arbitrary. -/
def startKey : StartTs → List Int
  | .missing => [0, 0, 0, 0, 0]
  | .bad => [0, 0, 0, 0, 0]
  | .dateOnly d => [1, d, 0, 0, 0]
  | .aware d tod off => [1, d, 1, (tod : Int), if 0 ≤ off then off else 2000 - off]

/-- The sort key of `result.sort(key=lambda e: (0 if e.get("allDay") else 1,
e.get("start", "")))` (line 305). -/
def sortKey (ev : Event) : List Int :=
  (if ev.allDay then 0 else 1) :: startKey ev.start

/-- The Boolean "key less-or-equal" ordering the sort uses. -/
def evLe (a b : Event) : Bool := tupleLe (sortKey a) (sortKey b)

/-- Embedding of `_events_for_date` (pil_renderer.py, lines 285-306): keep the
events whose parsed, timezone-converted start falls on `date`, then Python's
stable `list.sort` keyed as above — modelled by `List.mergeSort`, which is also
stable, hence produces the same list as any stable sort with the same key
order. -/
def _events_for_date (tz : Tz) (events : List Event) (date : Int) : List Event :=
  (events.filter (onDate tz date)).mergeSort evLe

/-- A loaded font, abstracted to what the renderer observes: its pixel size
(`font.size`) and its weight, which the width measure may depend on. -/
structure Font where
  size : Int
  bold : Bool
deriving DecidableEq, Repr

/-- The abstracted drawing and formatting collaborators of the renderer:
`measure s f` is `draw.textbbox((0, 0), s, f)[2]`; `longDate d` is `strftime("%A, %B %-d, %Y")` of calendar day `d`;
`clock12`/`clock24` are the `strftime` time renderings of `_format_event_time`. -/
structure RenderEnv where
  measure : String → Font → Int
  longDate : Int → String
  clock12 : AwareDT → String
  clock24 : AwareDT → String

/-- Embedding of `_format_event_time` (lines 368-383): parse and convert the
start, render it in the requested clock format; any failure yields `""`. -/
def _format_event_time (env : RenderEnv) (tz : Tz) (time_format : String)
    (ev : Event) : String :=
  match tsToTzAware tz ev.start with
  | none => ""
  | some dt => if time_format = "12h" then env.clock12 dt else env.clock24 dt

/-- A resolved drawing instruction issued to PIL: the low-level primitives
themselves are external, so the renderer is modelled as the list of calls it
makes.  `text` carries the anchor position, the string, the fill colour and the font. -/
inductive DrawCmd where
  | text (x y : Int) (s : String) (fill : RGB) (font : Font)
  | line (x1 y1 x2 y2 : Int) (fill : RGB) (width : Int)
  | rect (x1 y1 x2 y2 : Int) (fill : RGB)
  | ellipse (x1 y1 x2 y2 : Int) (fill : RGB)
deriving DecidableEq, Repr

/-- The `weather` argument of `render_dashboard` / `_draw_weather` as Python
truthiness sees it: `None`, the empty dict, or a nonempty dict. -/
inductive WeatherArg where
  | pyNone
  | emptyDict
  | dict (w : WeatherResult)
deriving DecidableEq, Repr

/-- Python truthiness of the `weather` argument (`if not weather:`): `None` and
`{}` are falsy; any nonempty dict — including the degraded failure dict, which
has the two keys `current` and `forecast` — is truthy. -/
def weatherTruthy : WeatherArg → Bool
  | .pyNone => false
  | .emptyDict => false
  | .dict _ => true

/-- Embedding of `_draw_weather` (pil_renderer.py, lines 398-497), as the list
of drawing calls it issues.  Font arguments are pixel sizes; `h` is accepted
and unused, as in the source. -/
def _draw_weather (env : RenderEnv) (weather : WeatherArg) (units : String)
    (labels : Labels) (time_format : String)
    (font_big font_med font_sm font_sm_bold : Font)
    (fg bg : RGB) (x y w h : Int) (font_scale : ℚ) : List DrawCmd :=
  if !weatherTruthy weather then
    [.text x y "No weather data" LIGHT_GRAY font_sm]
  else
    match weather with
    | .pyNone => []
    | .emptyDict => []
    | .dict wr =>
      let gap := pyInt (12 * font_scale)
      let curResult : List DrawCmd × Int :=
        match wr.current with
        | none => ([], y)
        | some current =>
          let temp := _convert_temp (some current.temperature) units
          let desc := (WEATHER_SYMBOLS.lookup current.weathercode).getD "?"
          let tempW := env.measure temp font_big
          let yDesc := y + (font_big.size - font_sm.size)
          ([.text x y temp fg font_big,
            .text (x + tempW + pyInt (10 * font_scale)) yDesc desc fg font_sm],
           y + font_big.size + gap)
      let y1 := curResult.2
      let todayResult : List DrawCmd × Int :=
        match wr.today with
        | none => ([], y1)
        | some today =>
          let mm : List DrawCmd × Int :=
            match today.temp_min, today.temp_max with
            | some tmin, some tmax =>
              let lo := _convert_temp_short (some tmin) units
              let hi := _convert_temp_short (some tmax) units
              let sfx := _unit_suffix units
              let sepRight := x + env.measure (lo ++ " – ") font_med
              ([.text x y1 lo BLUE font_med,
                .text sepRight y1 (hi ++ sfx) RED font_med],
               y1 + font_med.size + pyInt (6 * font_scale))
            | _, _ => ([], y1)
          let ya := mm.2
          let hourly := today.hourly
          let hres : List DrawCmd × Int :=
            if hourly.isEmpty then ([], ya)
            else
              let slotW := Int.fdiv w (max (hourly.length : Int) 1)
              let slotLbl : String → String := fun key =>
                if time_format = "12h" then (if key = "noon" then "Noon" else key)
                else if key = "8am" then "08:00" else if key = "noon" then "12:00"
                else if key = "3pm" then "15:00" else "20:00"
              let step : List DrawCmd × Int → String → List DrawCmd × Int := fun acc key =>
                match hourly.lookup key with
                | none => acc
                | some tv =>
                  (acc.1 ++ [.text acc.2 ya (slotLbl key) LIGHT_GRAY font_sm,
                             .text acc.2 (ya + font_sm.size + 2) (_convert_temp_short (some tv) units)
                               fg font_sm_bold],
                   acc.2 + slotW)
              let folded := ["8am", "noon", "3pm", "8pm"].foldl step ([], x)
              (folded.1, ya + font_sm.size * 2 + pyInt (8 * font_scale))
          let yb := hres.2
          (mm.1 ++ hres.1 ++ [.line x yb (x + w) yb LIGHT_GRAY 1], yb + gap)
      let y2 := todayResult.2
      let fres : List DrawCmd × Int :=
        wr.forecast.foldl
          (fun acc day =>
            let desc := (WEATHER_SYMBOLS.lookup day.weathercode).getD "?"
            let lo := _convert_temp_short (some day.temp_min) units
            let hi := _convert_temp_short (some day.temp_max) units
            let sfx := _unit_suffix units
            let yf := acc.2
            let yg := yf + font_sm_bold.size + 2
            let yh := yg + font_sm.size + gap
            (acc.1 ++ [.text x yf day.date fg font_sm_bold,
                       .text x yg (desc ++ "   " ++ lo ++ "–" ++ hi ++ sfx) fg font_sm,
                       .line x yh (x + w) yh LIGHT_GRAY 1],
             yh + gap))
          ([], y2)
      curResult.1 ++ todayResult.1 ++ fres.1

/-- Embedding of `_draw_event_row` (pil_renderer.py, lines 309-365): the
drawing calls for one event row and the new vertical cursor.  The hex
`backgroundColor` string is modelled in decoded form, so `_parse_color` is the
identity on it. -/
def _draw_event_row (env : RenderEnv) (tz : Tz) (time_format : String)
    (font_event font_event_bold : Font) (fg : RGB)
    (x0 y x1 line_h event_padding padding : Int) (ev : Event) :
    List DrawCmd × Int :=
  let is_placeholder := decide ("senior-dashboard-nothing-more" ∈ ev.classNames)
  let dot_r : Int := 5
  let dot_x := x0 + padding + dot_r
  let dot_y := y + event_padding + Int.fdiv line_h 2
  let dotCmd := DrawCmd.ellipse (dot_x - dot_r) (dot_y - dot_r) (dot_x + dot_r) (dot_y + dot_r)
    ev.backgroundColor
  let text_x := dot_x + dot_r + padding
  let time_str :=
    if ev.allDay && !is_placeholder then "All day"
    else if is_placeholder then ""
    else _format_event_time env tz time_format ev
  let tc : List DrawCmd × Int :=
    if time_str ≠ "" then
      ([DrawCmd.text text_x (y + event_padding) time_str LIGHT_GRAY font_event],
       text_x + (env.measure time_str font_event + padding))
    else ([], text_x)
  let title_x := tc.2
  let max_title_w := x1 - title_x - padding
  let titleCmds :=
    if 0 < max_title_w then
      [DrawCmd.text title_x (y + event_padding)
        (_truncate_text (fun s => env.measure s font_event_bold) ev.title max_title_w)
        fg font_event_bold]
    else []
  (dotCmd :: (tc.1 ++ titleCmds), y + line_h + event_padding)

/-- The per-day context of `_draw_calendar`. -/
structure CalCtx where
  env : RenderEnv
  tz : Tz
  time_format : String
  labels : Labels
  font_header : Font
  font_event : Font
  font_event_bold : Font
  fg : RGB
  padding : Int
  x0 : Int
  x1 : Int
  y_max : Int
  font_scale : ℚ
  header_h : Int
  event_line_h : Int
  event_padding : Int

/-- The inner row loop of `_draw_calendar` (lines 270-277), stopping when a
row would cross the bottom bound. -/
def drawRows (c : CalCtx) : List Event → Int → List DrawCmd × Int
  | [], y => ([], y)
  | ev :: rest, y =>
    if c.y_max < y + c.event_line_h then ([], y)
    else
      let r := _draw_event_row c.env c.tz c.time_format c.font_event c.font_event_bold c.fg
        c.x0 y c.x1 c.event_line_h c.event_padding c.padding ev
      let rec_ := drawRows c rest r.2
      (r.1 ++ rec_.1, rec_.2)

/-- The day loop of `_draw_calendar` (lines 242-280): header band, then the
day's events or the empty-day placeholder string, then a small gap; the loop
breaks when a header would cross the bottom bound. -/
def drawDays (c : CalCtx) (events : List Event) :
    List (String × Int × RGB) → Int → List DrawCmd × Int
  | [], y => ([], y)
  | (label, date, header_bg) :: rest, y =>
    if c.y_max < y + c.header_h then ([], y)
    else
      let header_text := label ++ ": " ++ c.env.longDate date
      let hc := [DrawCmd.rect c.x0 y c.x1 (y + c.header_h) header_bg,
                 DrawCmd.text (c.x0 + c.padding) (y + Int.fdiv (c.header_h - c.font_header.size) 2)
                   header_text WHITE c.font_header]
      let y1 := y + c.header_h
      let day_events := _events_for_date c.tz events date
      let ec : List DrawCmd × Int :=
        if day_events.isEmpty then
          ([DrawCmd.text (c.x0 + c.padding) (y1 + c.event_padding) c.labels.noEventsContent
              LIGHT_GRAY c.font_event],
           y1 + c.event_line_h + c.event_padding)
        else drawRows c day_events y1
      let y3 := ec.2 + pyInt (4 * c.font_scale)
      let rc := drawDays c events rest y3
      (hc ++ ec.1 ++ rc.1, rc.2)

/-- Embedding of `_draw_calendar` (pil_renderer.py, lines 203-282). -/
def _draw_calendar (env : RenderEnv) (tz : Tz) (events : List Event) (now : AwareDT)
    (time_format : String) (labels : Labels)
    (font_header font_event font_event_bold : Font) (fg bg : RGB)
    (padding x0 y0 x1 y_max : Int) (font_scale : ℚ) : List DrawCmd × Int :=
  let c : CalCtx :=
    { env := env, tz := tz, time_format := time_format, labels := labels
      font_header := font_header, font_event := font_event
      font_event_bold := font_event_bold, fg := fg, padding := padding
      x0 := x0, x1 := x1, y_max := y_max, font_scale := font_scale
      header_h := pyInt (28 * font_scale)
      event_line_h := pyInt (24 * font_scale)
      event_padding := pyInt (4 * font_scale) }
  drawDays c events
    [(labels.today, now.date, GREEN),
     (labels.tomorrow, now.date + 1, BLUE),
     (labels.dayAfterTomorrow, now.date + 2, BLUE)]
    y0

/-- Embedding of `_draw_title_bar` (pil_renderer.py, lines 177-200). -/
def _draw_title_bar (env : RenderEnv) (width title_h : Int) (now : AwareDT)
    (font_title : Font) (fg : RGB) (padding : Int) : List DrawCmd :=
  let title_text := env.longDate now.date
  let tw := env.measure title_text font_title
  let tx := Int.fdiv (width - tw) 2
  [.text tx padding title_text fg font_title,
   .line 0 title_h width title_h LIGHT_GRAY 1]

/-- The rendered image: PIL's `Image.new("RGB", (width, height), bg)` plus the
drawing calls issued on it. -/
structure Bitmap where
  width : Int
  height : Int
  background : RGB
  commands : List DrawCmd
deriving Repr

/-- Embedding of `render_dashboard` (pil_renderer.py, lines 89-167).  Colour
strings arrive in decoded form, so the `_parse_color` fallbacks do not fire;
`int(width * 0.64)` is modelled with the exact rational 64/100, faithful for
any realistic pixel width since the float product errs by far less than the
0.04 granularity of the exact product. -/
def render_dashboard (env : RenderEnv) (tz : Tz) (width height : Int)
    (events : List Event) (weather : WeatherArg) (now : AwareDT)
    (time_format : String) (labels : Labels) (font_scale : ℚ)
    (bg fg : RGB) (units : String) : Bitmap :=
  let title_size := pyInt (28 * font_scale)
  let header_size := pyInt (20 * font_scale)
  let event_size := pyInt (17 * font_scale)
  let weather_big := pyInt (32 * font_scale)
  let weather_med := pyInt (20 * font_scale)
  let weather_sm := pyInt (15 * font_scale)
  let padding := pyInt (10 * font_scale)
  let divider_x := pyInt ((width : ℚ) * (64 / 100))
  let title_h := title_size + padding * 2
  let font_title : Font := ⟨title_size, true⟩
  let font_header : Font := ⟨header_size, true⟩
  let font_event : Font := ⟨event_size, false⟩
  let font_event_bold : Font := ⟨event_size, true⟩
  let font_weather_big : Font := ⟨weather_big, true⟩
  let font_weather_med : Font := ⟨weather_med, true⟩
  let font_weather_sm : Font := ⟨weather_sm, false⟩
  let font_weather_sm_bold : Font := ⟨weather_sm, true⟩
  let titleCmds := _draw_title_bar env width title_h now font_title fg padding
  let dividerCmd := DrawCmd.line divider_x title_h divider_x height LIGHT_GRAY 1
  let cal_y := title_h + padding
  let cal := _draw_calendar env tz events now time_format labels
    font_header font_event font_event_bold fg bg padding 0 cal_y (divider_x - padding) height
    font_scale
  let wx := divider_x + padding
  let wy := title_h + padding
  let w_width := width - wx - padding
  let wCmds := _draw_weather env weather units labels time_format
    font_weather_big font_weather_med font_weather_sm font_weather_sm_bold fg bg wx wy w_width
    (height - wy - padding) font_scale
  { width := width, height := height, background := bg
    commands := titleCmds ++ [dividerCmd] ++ cal.1 ++ wCmds }

/-! ### Auxiliary predicates and concrete instances used by the theorems -/

/-- Whether the stored start string parses at all: missing and unparseable
starts are the ones every bucketing helper skips. -/
def startParses (ev : Event) : Bool :=
  match ev.start with
  | .missing => false
  | .bad => false
  | .dateOnly _ => true
  | .aware _ _ _ => true

/-- Well-formedness of a stored start for the sorting claim: an aware start is
really in the target timezone (its offset is the timezone's offset at its own
instant, as `astimezone(tz).isoformat()` guarantees) and its time of day is a
valid wall-clock minute.  Date-only and unparseable starts are unconstrained. -/
def startInTz (tz : Tz) (ev : Event) : Bool :=
  match ev.start with
  | .aware day tod off =>
      decide (tod < 1440) && (tz.fromUtcOff (day * 1440 + tod - off) == off)
  | _ => true

/-- The local wall-clock start minute an event displays: midnight for a
date-only start, the stored wall time of day for an aware one. -/
def localStartMinute (ev : Event) : Int :=
  match ev.start with
  | .aware _ tod _ => (tod : Int)
  | _ => 0

/-- A fixed-offset timezone (no transitions), `off` minutes east of UTC. -/
def tzFixed (off : Int) : Tz :=
  { fromUtcOff := fun _ => off, localizeOff := fun _ => off }

/-- America/New_York around the 2026-03-08 spring-forward transition, with day
0 as the transition day: UTC offset -300 (EST) before 07:00 UTC and -240 (EDT)
from then on; naive times are resolved at standard time, as `pytz.localize`
defaults to `is_dst=False`. -/
def tzSpring : Tz :=
  { fromUtcOff := fun u => if u < 420 then -300 else -240
    localizeOff := fun _ => -300 }

/-- 15:00 EDT on the transition day: UTC minute 1140 of day 0, offset -240 (as
`datetime.now(tz)` produces it). -/
def nowSpring : AwareDT := ⟨1140, -240⟩

/-- 10:00 EST on day 0 of a fixed UTC-5 timezone (UTC minute 900). -/
def nowFixed : AwareDT := ⟨900, -300⟩

/-- Counterexample occurrence for claim C1: a non-all-day occurrence whose
`end` timestamp (yesterday midnight) is earlier than its `start` timestamp
(today 23:00), both in the fixed UTC-5 timezone. -/
def c1occ : Occurrence :=
  { title := "inverted range"
    start := .aware 0 1380 (-300)
    endTime := some (.aware (-1) 0 (-300))
    allDay := false }

/-- An occurrence whose single timestamp fails to parse. -/
def badOcc : Occurrence :=
  { title := "unparseable", start := .bad, endTime := none, allDay := false }

/-- An event whose start string fails to parse. -/
def badEv : Event := { title := "unparseable", start := .bad }

/-- The width measure of the C5 counterexample: every character is 10 units
wide (so the ellipsis alone is 10 units wide). -/
def measC5 (s : String) : Int := 10 * s.length

/-- A concrete drawing environment for the closed renderer evaluations: each
character is 7 pixels wide, dates and clock renderings are fixed strings. -/
def envC4 : RenderEnv :=
  { measure := fun s _ => 7 * s.length
    longDate := fun _ => "Sunday, March 8, 2026"
    clock12 := fun _ => "3:00 pm"
    clock24 := fun _ => "15:00" }

/-! ### Theorems -/

/-- Claim C3: for every network or parse failure during the weather fetch,
`fetch_weather_data` returns (does not raise) a Snapshot whose `current` is
absent, whose `today` is absent, and whose `forecast` is empty. -/
theorem C3_weather_failure_degrades :
    ∀ (labels : Labels) (e : Unit),
      fetch_weather_data labels (.error e) =
        { current := none, today := none, forecast := [] } := by
  intro labels e
  rfl

/-- Claim C6: the derived text colour is white exactly when the weighted
luminance (299 r + 587 g + 114 b)/1000 is below 150 and black exactly when it
is at or above 150; background black yields white text and background white
yields black text. -/
theorem C6_contrast_color :
    (∀ c : RGB,
      (get_contrast_color c = "#ffffff" ↔
        ((c.r : ℚ) * 299 + (c.g : ℚ) * 587 + (c.b : ℚ) * 114) / 1000 < 150)
      ∧ (get_contrast_color c = "#000000" ↔
        150 ≤ ((c.r : ℚ) * 299 + (c.g : ℚ) * 587 + (c.b : ℚ) * 114) / 1000))
    ∧ get_contrast_color ⟨0, 0, 0⟩ = "#ffffff"
    ∧ get_contrast_color ⟨255, 255, 255⟩ = "#000000" := by
  refine ⟨fun c => ?_, by unfold get_contrast_color; norm_num,
    by unfold get_contrast_color; norm_num⟩
  unfold get_contrast_color
  by_cases h : 150 ≤ ((c.r : ℚ) * 299 + (c.g : ℚ) * 587 + (c.b : ℚ) * 114) / 1000
  · rw [if_pos h]
    constructor
    · exact ⟨fun habs => absurd habs (by decide), fun hlt => absurd h (not_le.mpr hlt)⟩
    · exact ⟨fun _ => h, fun _ => rfl⟩
  · rw [if_neg h]
    constructor
    · exact ⟨fun _ => lt_of_not_ge h, fun _ => rfl⟩
    · exact ⟨fun habs => absurd habs (by decide), fun hge => absurd hge h⟩

/-- Python `round` is the identity on integers. -/
theorem pyRound_intCast (n : ℤ) : pyRound (n : ℚ) = n := by
  unfold pyRound
  norm_num [Int.floor_intCast]

/-- Computation rule for `pyRound` below the midpoint. -/
theorem pyRound_eq (q : ℚ) (n : ℤ) (h1 : ⌊q⌋ = n) (h2 : q - n < 1/2) : pyRound q = n := by
  unfold pyRound
  rw [h1, if_pos h2]

/-- Claim C7: temperature display conversion yields `round(c * 9/5 + 32)` with
suffix °F for imperial, `round(c + 273.15)` with suffix K for standard, and
`round(c)` with suffix °C for metric (the identity on integer Celsius values);
the short form shows the same rounded number with a degree sign and no unit
letter; 0 °C maps to 32 °F and to 273 K. -/
theorem C7_temperature_conversion :
    (∀ c : ℚ,
        _convert_temp (some c) "imperial" = toString (pyRound (c * 9 / 5 + 32)) ++ "°F"
      ∧ _convert_temp (some c) "standard" = toString (pyRound (c + 273.15)) ++ "K"
      ∧ _convert_temp (some c) "metric" = toString (pyRound c) ++ "°C"
      ∧ _convert_temp_short (some c) "imperial" = toString (pyRound (c * 9 / 5 + 32)) ++ "°"
      ∧ _convert_temp_short (some c) "standard" = toString (pyRound (c + 273.15)) ++ "°"
      ∧ _convert_temp_short (some c) "metric" = toString (pyRound c) ++ "°")
    ∧ (∀ n : ℤ, _convert_temp (some (n : ℚ)) "metric" = toString n ++ "°C")
    ∧ _convert_temp (some 0) "imperial" = "32°F"
    ∧ _convert_temp (some 0) "standard" = "273K" := by
  have h32 : pyRound ((0 : ℚ) * 9 / 5 + 32) = 32 := by
    have : ((0 : ℚ) * 9 / 5 + 32) = ((32 : ℤ) : ℚ) := by norm_num
    rw [this, pyRound_intCast]
  have h273 : pyRound ((0 : ℚ) + 273.15) = 273 := by
    refine pyRound_eq _ 273 ?_ ?_
    · rw [Int.floor_eq_iff]
      norm_num
    · norm_num
  refine ⟨fun c => ⟨rfl, rfl, rfl, rfl, rfl, rfl⟩, fun n => ?_, ?_, ?_⟩
  · show toString (pyRound (n : ℚ)) ++ "°C" = toString n ++ "°C"
    rw [pyRound_intCast]
  · show toString (pyRound ((0 : ℚ) * 9 / 5 + 32)) ++ "°F" = "32°F"
    rw [h32]; rfl
  · show toString (pyRound ((0 : ℚ) + 273.15)) ++ "K" = "273K"
    rw [h273]; rfl

/-- Claim C9: for every locale looked up in the label table (unknown codes
fall back to English), the placeholder text injected for today differs from
the placeholder text injected for tomorrow and for the day after tomorrow,
and the latter two are one and the same text. -/
theorem C9_placeholder_texts :
    ∀ (locale : String) (now : AwareDT),
      (placeholderToday (getLabels locale) now).title ≠
        (placeholderFuture (getLabels locale) now 1).title
      ∧ (placeholderFuture (getLabels locale) now 1).title =
        (placeholderFuture (getLabels locale) now 2).title := by
  intro locale now
  refine ⟨?_, rfl⟩
  show (getLabels locale).nothingMoreToday ≠ (getLabels locale).noEventsContent
  unfold getLabels
  repeat' split
  all_goals decide

/-- Claim C1 counterexample: for the occurrence `c1occ` (end yesterday, start
today 23:00, not all-day) at 10:00 today, the spec's "later of `end` or
`start`" rule says keep (the later instant, the start, ends today after now),
but the code parses `end or start` — the `end` string — whose date is
yesterday, and drops the occurrence. -/
theorem C1_counterexample :
    keepOccurrence (tzFixed (-300)) nowFixed c1occ = false
    ∧ specExcludes (tzFixed (-300)) nowFixed c1occ = false := by
  constructor
  · rfl
  · rfl

/-- Claim C1 (amended): an occurrence is excluded from the aggregator's output
exactly when its effective end timestamp — `end` when present, otherwise
`start` — parses to an instant whose calendar date is strictly before today's,
or the occurrence is non-all-day, that date equals today's, and the instant is
at or before now; any occurrence whose effective end timestamp fails to parse
is kept; a source's output is its kept occurrences' dictionaries in order. -/
theorem C1_filter_rule :
    ∀ (tz : Tz) (now : AwareDT) (occs : List Occurrence) (color : RGB),
      fetch_ics_events tz now [(occs, color)] =
        (occs.filter (keepOccurrence tz now)).map (mkParsedEvent color)
      ∧ ∀ occ : Occurrence,
          (keepOccurrence tz now occ = false ↔
            ∃ d, filterEndDt tz occ = some d ∧
              (d.date < now.date ∨
                (occ.allDay = false ∧ d.date = now.date ∧ d.utc ≤ now.utc)))
          ∧ (filterEndDt tz occ = none → keepOccurrence tz now occ = true) := by
  intro tz now occs color
  refine ⟨by simp [fetch_ics_events], fun occ => ⟨?_, fun h => by simp [keepOccurrence, h]⟩⟩
  cases h : filterEndDt tz occ with
  | none => simp [keepOccurrence, h]
  | some d =>
    simp only [keepOccurrence, h]
    constructor
    · intro hfalse
      refine ⟨d, rfl, ?_⟩
      by_cases h1 : d.date < now.date
      · exact Or.inl h1
      · rw [if_neg h1] at hfalse
        by_cases h2 : (d.date == now.date && !occ.allDay && decide (d.utc ≤ now.utc)) = true
        · right
          simp only [Bool.and_eq_true, beq_iff_eq, Bool.not_eq_true',
            decide_eq_true_eq] at h2
          exact ⟨h2.1.2, h2.1.1, h2.2⟩
        · rw [if_neg h2] at hfalse
          cases hfalse
    · rintro ⟨d', hd', hcond⟩
      have hdd : d' = d := (Option.some.inj hd').symm
      subst hdd
      rcases hcond with h1 | ⟨ha, h2, h3⟩
      · rw [if_pos h1]
      · by_cases h1 : d'.date < now.date
        · rw [if_pos h1]
        · rw [if_neg h1, if_pos]
          simp [h2, ha, h3]

/-- Witness for `C1_filter_rule` at a concrete input: a source consisting of
the unparseable-timestamp occurrence and the counterexample occurrence; the
unparseable one is kept. -/
theorem C1_filter_rule_witness :
    fetch_ics_events (tzFixed (-300)) nowFixed [([badOcc, c1occ], defaultColor)] =
      ([badOcc, c1occ].filter (keepOccurrence (tzFixed (-300)) nowFixed)).map
        (mkParsedEvent defaultColor)
    ∧ filterEndDt (tzFixed (-300)) badOcc = none
    ∧ keepOccurrence (tzFixed (-300)) nowFixed badOcc = true := by
  refine ⟨(C1_filter_rule (tzFixed (-300)) nowFixed [badOcc, c1occ] defaultColor).1, rfl, ?_⟩
  exact ((C1_filter_rule (tzFixed (-300)) nowFixed [badOcc, c1occ] defaultColor).2 badOcc).2 rfl

/-- Claim C2, evaluated at the failing input: in America/New_York on the
spring-forward day (empty event collection, now 15:00 EDT), injection appends
the three placeholders (and, in general, only ever appends), but today's
placeholder start — wall midnight carrying now's EDT offset — converts into the
timezone as 23:00 EST of the *previous* day, so after injection today still
has no event whose converted start falls on it, contradicting the claimed
guarantee. -/
theorem C2_placeholder_dst_bug :
    injectPlaceholders tzSpring labelsEn nowSpring [] =
      [placeholderToday labelsEn nowSpring,
       placeholderFuture labelsEn nowSpring 1,
       placeholderFuture labelsEn nowSpring 2]
    ∧ (tsToTzAware tzSpring (placeholderToday labelsEn nowSpring).start).map AwareDT.date =
        some (nowSpring.date - 1)
    ∧ has_event_on_date tzSpring
        (injectPlaceholders tzSpring labelsEn nowSpring []) nowSpring.date = false
    ∧ has_event_on_date tzSpring
        (injectPlaceholders tzSpring labelsEn nowSpring []) (nowSpring.date + 1) = true
    ∧ has_event_on_date tzSpring
        (injectPlaceholders tzSpring labelsEn nowSpring []) (nowSpring.date + 2) = true := by
  refine ⟨rfl, rfl, rfl, rfl, rfl⟩

/-- Injection appends: the existing events are preserved, in order, as a
prefix of the result (used by claims about the injector). -/
theorem appendStep {α : Type} (base : List α) (l : List α) (x : α)
    (h : ∃ t, l = base ++ t) (c : Bool) :
    ∃ t, (if c = true then l else l ++ [x]) = base ++ t := by
  obtain ⟨t, rfl⟩ := h
  cases c
  · exact ⟨t ++ [x], by simp [List.append_assoc]⟩
  · exact ⟨t, by simp⟩

theorem injectPlaceholders_append :
    ∀ (tz : Tz) (labels : Labels) (now : AwareDT) (events : List Event),
      ∃ tail, injectPlaceholders tz labels now events = events ++ tail := by
  intro tz labels now events
  simp only [injectPlaceholders]
  exact appendStep events _ _
    (appendStep events _ _
      (appendStep events _ _ ⟨[], (List.append_nil events).symm⟩ _) _) _

/-- Claim C10: events whose start is missing or fails to parse are invisible
to day bucketing — they never influence the membership test, a collection
consisting only of such events still receives today's placeholder, and they
never appear in any day's rendered event list. -/
theorem C10_unparseable_invisible :
    ∀ (tz : Tz) (labels : Labels) (now : AwareDT) (d : Int) (ev : Event)
      (evs : List Event),
      (startParses ev = false →
        has_event_on_date tz (ev :: evs) d = has_event_on_date tz evs d)
      ∧ ((∀ e ∈ evs, startParses e = false) →
          has_event_on_date tz evs d = false
          ∧ ∃ rest, injectPlaceholders tz labels now evs =
              evs ++ (placeholderToday labels now :: rest))
      ∧ (∀ e ∈ _events_for_date tz evs d, startParses e = true) := by
  intro tz labels now d ev evs
  have hnone : ∀ e : Event, startParses e = false → tsToTzAware tz e.start = none := by
    intro e he
    cases hs : e.start <;> simp [startParses, hs] at he ⊢ <;> rfl
  have hOnDate : ∀ e : Event, startParses e = false → ∀ dd : Int, onDate tz dd e = false := by
    intro e he dd
    simp [onDate, hnone e he]
  refine ⟨fun he => ?_, fun hall => ?_, fun e hmem => ?_⟩
  · simp [has_event_on_date, hOnDate ev he]
  · have hfalse : ∀ dd : Int, has_event_on_date tz evs dd = false := by
      intro dd
      simp only [has_event_on_date, List.any_eq_false]
      intro e he
      simp [hOnDate e (hall e he)]
    refine ⟨hfalse d, ?_⟩
    have h1 : (if has_event_on_date tz evs now.date = true then evs
        else evs ++ [placeholderToday labels now]) = evs ++ [placeholderToday labels now] := by
      rw [hfalse now.date]
      simp
    simp only [injectPlaceholders, h1]
    obtain ⟨t, ht⟩ := appendStep (evs ++ [placeholderToday labels now]) _
      (placeholderFuture labels now 2)
      (appendStep (evs ++ [placeholderToday labels now]) _ (placeholderFuture labels now 1)
        ⟨[], (List.append_nil _).symm⟩ _) _
    refine ⟨t, ?_⟩
    rw [ht, List.append_assoc]
    rfl
  · by_contra hbad
    have hb : startParses e = false := by
      cases hp : startParses e
      · rfl
      · exact absurd hp hbad
    have : onDate tz d e = true := by
      have hmem' := (@List.mem_mergeSort _ evLe _ _).mp hmem
      exact (List.mem_filter.mp hmem').2
    rw [hOnDate e hb d] at this
    cases this

/-- Witness for `C10_unparseable_invisible` at a concrete input: a collection
holding only the unparseable event. -/
theorem C10_unparseable_invisible_witness :
    (startParses badEv = false
      ∧ has_event_on_date (tzFixed (-300)) [badEv, badEv] 0 =
          has_event_on_date (tzFixed (-300)) [badEv] 0)
    ∧ ((∀ e ∈ [badEv], startParses e = false)
      ∧ has_event_on_date (tzFixed (-300)) [badEv] 0 = false
      ∧ ∃ rest, injectPlaceholders (tzFixed (-300)) labelsEn nowFixed [badEv] =
          [badEv] ++ (placeholderToday labelsEn nowFixed :: rest)) := by
  refine ⟨⟨by decide, ?_⟩, ⟨by decide, ?_⟩⟩
  · exact (C10_unparseable_invisible (tzFixed (-300)) labelsEn nowFixed 0 badEv [badEv]).1
      (by decide)
  · exact (C10_unparseable_invisible (tzFixed (-300)) labelsEn nowFixed 0 badEv [badEv]).2.1
      (by decide)

/-- Claim C4, evaluated at the failing input: a failed weather fetch returns
the degraded dict, and rendering with it produces a bitmap of exactly the
requested 800×480 dimensions — but that dict, being a nonempty Python dict, is
truthy, so `_draw_weather`'s `if not weather` guard does not fire and the
weather column receives no drawing calls at all: the "No weather data" text is
drawn only for a falsy (`None` or `{}`) weather argument, never for the
degraded dict. -/
theorem C4_no_weather_message_bug :
    (render_dashboard envC4 (tzFixed (-300)) 800 480 []
        (WeatherArg.dict (fetch_weather_data labelsEn (.error ()))) nowFixed
        "12h" labelsEn 1 WHITE BLACK "imperial").width = 800
    ∧ (render_dashboard envC4 (tzFixed (-300)) 800 480 []
        (WeatherArg.dict (fetch_weather_data labelsEn (.error ()))) nowFixed
        "12h" labelsEn 1 WHITE BLACK "imperial").height = 480
    ∧ fetch_weather_data labelsEn (.error ()) = degradedWeather
    ∧ weatherTruthy (WeatherArg.dict (fetch_weather_data labelsEn (.error ()))) = true
    ∧ _draw_weather envC4 (WeatherArg.dict (fetch_weather_data labelsEn (.error ())))
        "imperial" labelsEn "12h" ⟨32, true⟩ ⟨20, true⟩ ⟨15, false⟩ ⟨15, true⟩
        BLACK WHITE 522 58 268 412 1 = []
    ∧ _draw_weather envC4 WeatherArg.pyNone
        "imperial" labelsEn "12h" ⟨32, true⟩ ⟨20, true⟩ ⟨15, false⟩ ⟨15, true⟩
        BLACK WHITE 522 58 268 412 1 =
        [DrawCmd.text 522 58 "No weather data" LIGHT_GRAY ⟨15, false⟩] := by
  exact ⟨rfl, rfl, rfl, rfl, rfl, rfl⟩

/-- Behaviour of the truncation loop: it returns some initial segment of the
text followed by an ellipsis; either the longest proper initial segment whose
widened form fits (every longer one tested having failed), or — when no
non-empty proper initial segment fits — the bare ellipsis. -/
theorem truncGo_spec (meas : String → Int) (maxW : Int) :
    ∀ (n : Nat) (l : List Char), l.length = n →
      ∃ k : Nat,
        truncGo meas maxW n l = String.mk (l.take k) ++ "…"
        ∧ ((1 ≤ k ∧ k + 1 ≤ l.length
             ∧ meas (String.mk (l.take k) ++ "…") ≤ maxW
             ∧ ∀ j : Nat, k < j → j + 1 ≤ l.length →
                 ¬ meas (String.mk (l.take j) ++ "…") ≤ maxW)
           ∨ (k = 0
             ∧ ∀ j : Nat, 1 ≤ j → j + 1 ≤ l.length →
                 ¬ meas (String.mk (l.take j) ++ "…") ≤ maxW)) := by
  intro n
  induction n with
  | zero =>
    intro l hl
    have hnil : l = [] := List.eq_nil_of_length_eq_zero hl
    subst hnil
    exact ⟨0, rfl, Or.inr ⟨rfl, fun j hj hj2 => by simp at hj2⟩⟩
  | succ n ih =>
    intro l hl
    simp only [truncGo]
    by_cases hlen : l.length ≤ 1
    · rw [if_pos hlen]
      exact ⟨0, rfl, Or.inr ⟨rfl, fun j hj hj2 => by omega⟩⟩
    · rw [if_neg hlen]
      have htlen : l.dropLast.length = n := by
        rw [List.length_dropLast, hl]
        omega
      have htake : ∀ j : Nat, j + 1 ≤ l.length → l.dropLast.take j = l.take j := by
        intro j hj
        rw [List.dropLast_eq_take, List.take_take]
        congr 1
        omega
      have htfull : l.dropLast = l.take (l.length - 1) := List.dropLast_eq_take l
      by_cases hfit : meas (String.mk l.dropLast ++ "…") ≤ maxW
      · rw [if_pos hfit]
        refine ⟨l.length - 1, by rw [← htfull], Or.inl ⟨by omega, by omega, ?_, ?_⟩⟩
        · rw [← htfull]
          exact hfit
        · intro j hj hj2
          omega
      · rw [if_neg hfit]
        obtain ⟨k, hk, hcase⟩ := ih l.dropLast htlen
        rcases hcase with ⟨h1, h2, h3, h4⟩ | ⟨h0, hB⟩
        · refine ⟨k, ?_, Or.inl ⟨h1, by omega, ?_, ?_⟩⟩
          · rw [hk, htake k (by omega)]
          · rw [← htake k (by omega)]
            exact h3
          · intro j hj hj2
            by_cases hjlast : j + 1 ≤ l.dropLast.length
            · rw [← htake j (by omega)]
              exact h4 j hj hjlast
            · have hjeq : j = l.length - 1 := by omega
              rw [hjeq, ← htfull]
              exact hfit
        · refine ⟨k, ?_, Or.inr ⟨h0, ?_⟩⟩
          · subst h0
            rw [hk]
            rfl
          · intro j hj hj2
            by_cases hjlast : j + 1 ≤ l.dropLast.length
            · rw [← htake j (by omega)]
              exact hB j hj hjlast
            · have hjeq : j = l.length - 1 := by omega
              rw [hjeq, ← htfull]
              exact hfit

/-- Claim C5 counterexample: with a font in which every character (the
ellipsis included) is 10 units wide and 5 units available, the string "ab"
does not fit, no prefix-plus-ellipsis fits either, and the returned bare
ellipsis itself exceeds the available width — contradicting "in every
non-fitting case the returned text … never exceeds the available width". -/
theorem C5_counterexample :
    _truncate_text measC5 "ab" 5 = "…"
    ∧ ¬ measC5 "ab" ≤ 5
    ∧ ¬ measC5 (_truncate_text measC5 "ab" 5) ≤ 5 := by
  exact ⟨rfl, by decide, by decide⟩

/-- Claim C5 (amended): a string that fits is returned unchanged; otherwise
the result is an initial segment of the string followed by an ellipsis — the
longest proper initial segment whose widened form fits, in which case the
result fits the available width and every longer tested prefix fails, or the
bare ellipsis (which may itself exceed the width) when no non-empty proper
initial segment fits. -/
theorem C5_truncation :
    ∀ (meas : String → Int) (text : String) (maxW : Int),
      (meas text ≤ maxW → _truncate_text meas text maxW = text)
      ∧ (¬ meas text ≤ maxW →
          ∃ k : Nat,
            _truncate_text meas text maxW = String.mk (text.toList.take k) ++ "…"
            ∧ ((1 ≤ k ∧ k + 1 ≤ text.toList.length
                 ∧ meas (_truncate_text meas text maxW) ≤ maxW
                 ∧ ∀ j : Nat, k < j → j + 1 ≤ text.toList.length →
                     ¬ meas (String.mk (text.toList.take j) ++ "…") ≤ maxW)
               ∨ (k = 0
                 ∧ ∀ j : Nat, 1 ≤ j → j + 1 ≤ text.toList.length →
                     ¬ meas (String.mk (text.toList.take j) ++ "…") ≤ maxW))) := by
  intro meas text maxW
  constructor
  · intro h
    unfold _truncate_text
    rw [if_pos h]
  · intro h
    unfold _truncate_text
    rw [if_neg h]
    obtain ⟨k, hk, hcase⟩ := truncGo_spec meas maxW text.toList.length text.toList rfl
    refine ⟨k, hk, ?_⟩
    rcases hcase with ⟨h1, h2, h3, h4⟩ | hB
    · exact Or.inl ⟨h1, h2, by rw [hk]; exact h3, h4⟩
    · exact Or.inr hB

/-- Witness for `C5_truncation` at concrete inputs: "a" fits in width 25 and
is returned unchanged; "abc" does not fit, and the loop stops at the prefix
"a", returning "a…". -/
theorem C5_truncation_witness :
    (measC5 "a" ≤ 25 ∧ _truncate_text measC5 "a" 25 = "a")
    ∧ (¬ measC5 "abc" ≤ 25
      ∧ ∃ k : Nat,
          _truncate_text measC5 "abc" 25 = String.mk ("abc".toList.take k) ++ "…"
          ∧ ((1 ≤ k ∧ k + 1 ≤ "abc".toList.length
               ∧ measC5 (_truncate_text measC5 "abc" 25) ≤ 25
               ∧ ∀ j : Nat, k < j → j + 1 ≤ "abc".toList.length →
                   ¬ measC5 (String.mk ("abc".toList.take j) ++ "…") ≤ 25)
             ∨ (k = 0
               ∧ ∀ j : Nat, 1 ≤ j → j + 1 ≤ "abc".toList.length →
                   ¬ measC5 (String.mk ("abc".toList.take j) ++ "…") ≤ 25))) := by
  constructor
  · exact ⟨by decide, (C5_truncation measC5 "a" 25).1 (by decide)⟩
  · exact ⟨by decide, (C5_truncation measC5 "abc" 25).2 (by decide)⟩

/-- Totality of the tuple comparison. -/
theorem tupleLe_total : ∀ xs ys : List Int, (tupleLe xs ys || tupleLe ys xs) = true := by
  intro xs
  induction xs with
  | nil => intro ys; simp [tupleLe]
  | cons x xs ih =>
    intro ys
    cases ys with
    | nil => simp [tupleLe]
    | cons y ys =>
      simp only [tupleLe]
      by_cases h1 : x < y
      · simp [h1]
      · by_cases h2 : y < x
        · simp [h1, h2]
        · simp [h1, h2, ih ys]

/-- Transitivity of the tuple comparison on equal-length tuples. -/
theorem tupleLe_trans :
    ∀ xs ys zs : List Int, xs.length = ys.length → ys.length = zs.length →
      tupleLe xs ys = true → tupleLe ys zs = true → tupleLe xs zs = true := by
  intro xs
  induction xs with
  | nil => intro ys zs _ _ _ _; simp [tupleLe]
  | cons x xs ih =>
    intro ys zs h1 h2 hxy hyz
    cases ys with
    | nil => simp at h1
    | cons y ys =>
      cases zs with
      | nil => simp at h2
      | cons z zs =>
        simp only [tupleLe] at hxy hyz ⊢
        by_cases hxy1 : x < y
        · by_cases hyz1 : y < z
          · rw [if_pos (show x < z by omega)]
          · by_cases hyz2 : z < y
            · rw [if_neg hyz1, if_pos hyz2] at hyz
              exact Bool.noConfusion hyz
            · rw [if_pos (show x < z by omega)]
        · by_cases hxy2 : y < x
          · rw [if_neg hxy1, if_pos hxy2] at hxy
            exact Bool.noConfusion hxy
          · rw [if_neg hxy1, if_neg hxy2] at hxy
            by_cases hyz1 : y < z
            · rw [if_pos (show x < z by omega)]
            · by_cases hyz2 : z < y
              · rw [if_neg hyz1, if_pos hyz2] at hyz
                exact Bool.noConfusion hyz
              · rw [if_neg hyz1, if_neg hyz2] at hyz
                rw [if_neg (show ¬ x < z by omega), if_neg (show ¬ z < x by omega)]
                exact ih ys zs (by simpa using h1) (by simpa using h2) hxy hyz

/-- Comparing equal heads descends into the tails. -/
theorem tupleLe_cons_self (x : Int) (xs ys : List Int) :
    tupleLe (x :: xs) (x :: ys) = tupleLe xs ys := by
  simp [tupleLe]

/-- Every sort key has six entries. -/
theorem sortKey_length (ev : Event) : (sortKey ev).length = 6 := by
  cases h : ev.start <;> simp [sortKey, startKey, h]

/-- The event comparison is transitive. -/
theorem evLe_trans (a b c : Event) (h1 : evLe a b) (h2 : evLe b c) : evLe a c :=
  tupleLe_trans _ _ _ (by rw [sortKey_length, sortKey_length])
    (by rw [sortKey_length, sortKey_length]) h1 h2

/-- The event comparison is total. -/
theorem evLe_total (a b : Event) : (evLe a b || evLe b a) = true :=
  tupleLe_total _ _

/-- Floor division recovers the day from day-and-minute form. -/
theorem fdiv_day (d m : Int) (h0 : 0 ≤ m) (h1 : m < 1440) :
    Int.fdiv (d * 1440 + m) 1440 = d := by
  rw [Int.fdiv_eq_ediv _ (by norm_num)]
  omega

/-- An event passing the day-bucket test with a well-formed start carries the
bucket's date in its start's own day field. -/
theorem onDate_start (tz : Tz) (date : Int) (ev : Event)
    (h : onDate tz date ev = true) (hw : startInTz tz ev = true) :
    ev.start = .dateOnly date
    ∨ ∃ tod off, ev.start = .aware date tod off ∧ tod < 1440 := by
  cases hs : ev.start with
  | missing => simp [onDate, tsToTzAware, hs] at h
  | bad => simp [onDate, tsToTzAware, hs] at h
  | dateOnly d =>
    left
    simp only [onDate, tsToTzAware, hs, Tz.localize, AwareDT.date, AwareDT.wall,
      beq_iff_eq] at h
    have hwall : d * 1440 - tz.localizeOff (d * 1440) + tz.localizeOff (d * 1440) =
        d * 1440 + 0 := by ring
    rw [hwall, fdiv_day d 0 le_rfl (by norm_num)] at h
    rw [h]
  | aware d tod off =>
    right
    simp only [startInTz, hs, Bool.and_eq_true, decide_eq_true_eq, beq_iff_eq] at hw
    obtain ⟨htod, hoff⟩ := hw
    simp only [onDate, tsToTzAware, hs, Tz.astimezone, AwareDT.date, AwareDT.wall,
      beq_iff_eq] at h
    rw [hoff] at h
    have hwall : d * 1440 + (tod : Int) - off + off = d * 1440 + (tod : Int) := by ring
    rw [hwall, fdiv_day d tod (by positivity) (by exact_mod_cast htod)] at h
    exact ⟨tod, off, by rw [h], htod⟩

/-- Claim C8: for every agenda day, the bucketed-and-sorted event list is
ordered with all-day events first and, within each group, by local start time
ascending — provided every event's aware start really lies in the target
timezone (as the pipeline's normalization guarantees). -/
theorem C8_day_events_order :
    ∀ (tz : Tz) (events : List Event) (date : Int),
      (∀ ev ∈ events, startInTz tz ev = true) →
      List.Pairwise
        (fun a b =>
          (b.allDay = true → a.allDay = true)
          ∧ (a.allDay = b.allDay → localStartMinute a ≤ localStartMinute b))
        (_events_for_date tz events date) := by
  intro tz events date hwf
  unfold _events_for_date
  have hsorted := @List.sorted_mergeSort _ evLe
    (fun a b c => evLe_trans a b c) (fun a b => evLe_total a b)
    (events.filter (onDate tz date))
  refine (List.Pairwise.and_mem.mp hsorted).imp ?_
  rintro a b ⟨hamem, hbmem, hle⟩
  obtain ⟨haIn, haOn⟩ := List.mem_filter.mp ((List.mem_mergeSort).mp hamem)
  obtain ⟨hbIn, hbOn⟩ := List.mem_filter.mp ((List.mem_mergeSort).mp hbmem)
  have haS := onDate_start tz date a haOn (hwf a haIn)
  have hbS := onDate_start tz date b hbOn (hwf b hbIn)
  constructor
  · intro hb
    by_contra hna
    have h1 : a.allDay = false := by
      revert hna
      cases a.allDay <;> simp
    rw [evLe, sortKey, sortKey, h1, hb] at hle
    simp [tupleLe] at hle
  · intro hab
    rcases haS with hsa | ⟨ta, oa, hsa, hta⟩
    · rcases hbS with hsb | ⟨tb, ob, hsb, htb⟩
      · simp [localStartMinute, hsa, hsb]
      · simp only [localStartMinute, hsa, hsb]
        positivity
    · rcases hbS with hsb | ⟨tb, ob, hsb, htb⟩
      · exfalso
        rw [evLe, sortKey, sortKey, hsa, hsb, startKey, startKey, hab] at hle
        rw [tupleLe_cons_self, tupleLe_cons_self, tupleLe_cons_self] at hle
        simp [tupleLe] at hle
      · simp only [localStartMinute, hsa, hsb]
        rw [evLe, sortKey, sortKey, hsa, hsb, startKey, startKey, hab] at hle
        rw [tupleLe_cons_self, tupleLe_cons_self, tupleLe_cons_self,
          tupleLe_cons_self] at hle
        by_cases hc : (ta : Int) < (tb : Int)
        · omega
        · by_cases hc2 : (tb : Int) < (ta : Int)
          · exfalso
            simp only [tupleLe] at hle
            rw [if_neg hc, if_pos hc2] at hle
            exact Bool.noConfusion hle
          · omega

/-- The two events of the C8 witness: a timed event at 10:00 and an all-day
event, both on day 0 of the fixed UTC-5 timezone. -/
def c8events : List Event :=
  [{ title := "timed", start := .aware 0 600 (-300), allDay := false },
   { title := "allday", start := .dateOnly 0, allDay := true }]

/-- Witness for `C8_day_events_order` at a concrete input. -/
theorem C8_day_events_order_witness :
    (∀ ev ∈ c8events, startInTz (tzFixed (-300)) ev = true)
    ∧ List.Pairwise
        (fun a b =>
          (b.allDay = true → a.allDay = true)
          ∧ (a.allDay = b.allDay → localStartMinute a ≤ localStartMinute b))
        (_events_for_date (tzFixed (-300)) c8events 0) :=
  ⟨by decide, C8_day_events_order (tzFixed (-300)) c8events 0 (by decide)⟩

end AgendaWeather
